import Mathlib

/-!
Verification of the days-to-hire statistics pipeline.

This file gives a shallow embedding, in Lean 4, of the core of the
repository `hrf-universe-home-task`:

* `src/home_task/cli/days_to_hire.py` — the statistics pipeline
  (`get_job_postings_data`, `calculate_stats`, `save_stats`,
  `process_job_postings`, `main`);
* `src/home_task/api/api.py` — the read-side endpoint
  (`get_days_to_hire_stats`);
* `src/home_task/models.py` — the table-backed records `JobPosting` and
  `JobPostingStats`.

Modelling choices:

* Python/numpy floating point numbers are modelled as exact rationals
  (`ℚ`); `days_to_hire` values are integers, so all the arithmetic the
  pipeline performs (linear-interpolation percentiles, mean) is exact
  rational arithmetic on the inputs considered here.
* A SQLAlchemy session is modelled as explicit state: the `job_posting`
  table as a `List JobPosting` and the `job_posting_stats` table as a
  `List JobPostingStats`, in insertion order.  A query with `.first()`
  takes the head of the filtered list; `.all()` takes the whole filtered
  list.
* SQLAlchemy's `column == value` comparison has SQL semantics: comparing
  a column against Python `None` compiles to `IS NULL`, i.e. it matches
  exactly the rows whose stored value is absent, and comparing against a
  non-null value never matches a NULL cell.  On our `Option String`
  model both behaviours coincide with Lean's `Option` equality `==`.
* `uuid.uuid4()` is modelled by passing the freshly generated identifier
  as an explicit argument (`newId`).
-/

/-! ## Data model (`src/home_task/models.py`) -/

/-- A row of the `job_posting` table (`models.py`, `JobPosting`).
`country_code` and `days_to_hire` are nullable. -/
structure JobPosting where
  id : String
  title : String
  standard_job_id : String
  country_code : Option String
  days_to_hire : Option ℤ
deriving DecidableEq, Repr

/-- A row of the `job_posting_stats` table (`models.py`, `JobPostingStats`).
The numeric fields are always written by `save_stats`, so they are kept
non-optional in the model; `country_code` is kept optional as in the
schema because the SQL comparison semantics of a nullable column matter
for the upsert lookup. -/
structure JobPostingStats where
  id : String
  standard_job_id : String
  country_code : Option String
  min_days : ℚ
  avg_days : ℚ
  max_days : ℚ
  job_postings_number : ℕ
deriving DecidableEq, Repr

/-! ## The calculator (`days_to_hire.py`, `calculate_stats`, lines 36–61) -/

/-- Minimum of a non-empty list of integers (`np.min`); `0` on `[]`
(unreachable in `calculate_stats`, which guards against the empty list). -/
def listMin : List ℤ → ℤ
  | [] => 0
  | [x] => x
  | x :: y :: t => min x (listMin (y :: t))

/-- Maximum of a non-empty list of integers (`np.max`); `0` on `[]`. -/
def listMax : List ℤ → ℤ
  | [] => 0
  | [x] => x
  | x :: y :: t => max x (listMax (y :: t))

/-- Linear-interpolation percentile of an already sorted list, numpy's
default (`interpolation=linear`) convention: the rank is
`p/100 * (n - 1)`; the result interpolates between the two adjacent
sorted values at positions `⌊rank⌋` and `⌊rank⌋ + 1`.  The out-of-range
default of the upper index is irrelevant: it is only read when the
fractional part is `0`. -/
def percentileSorted (s : List ℤ) (p : ℚ) : ℚ :=
  let n := s.length
  let r : ℚ := p / 100 * ((n : ℚ) - 1)
  let i : ℕ := (⌊r⌋).toNat
  let lo : ℚ := (s.getD i 0 : ℤ)
  let hi : ℚ := (s.getD (i + 1) (s.getD i 0) : ℤ)
  lo + (r - (i : ℚ)) * (hi - lo)

/-- Model of `np.percentile(values, p)`: numpy sorts the data internally, then
interpolates linearly. -/
def npPercentile (values : List ℤ) (p : ℚ) : ℚ :=
  percentileSorted (List.insertionSort (fun a b => a ≤ b) values) p

/-- The boolean mask `(values >= p10) & (values <= p90)` applied to one
element. -/
def inBand (p10 p90 : ℚ) (v : ℤ) : Bool :=
  decide (p10 ≤ (v : ℚ)) && decide ((v : ℚ) ≤ p90)

/-- Model of `calculate_stats` (`days_to_hire.py`, lines 36–61): percentile-trimmed
`(min_days, avg_days, max_days, count)` of a list of day counts. -/
def calculate_stats (days_to_hire_values : List ℤ) : ℚ × ℚ × ℚ × ℕ :=
  if days_to_hire_values.length = 0 then (0, 0, 0, 0)
  else
    let p10 := npPercentile days_to_hire_values 10
    let p90 := npPercentile days_to_hire_values 90
    let filtered_values := days_to_hire_values.filter (inBand p10 p90)
    if filtered_values.length = 0 then (0, 0, 0, 0)
    else
      ((listMin filtered_values : ℤ),
       (filtered_values.map (fun (v : ℤ) => (v : ℚ))).sum / (filtered_values.length : ℚ),
       (listMax filtered_values : ℤ),
       filtered_values.length)

/-! ## Reference algorithm from the specification (for the refinement
claim about `calculate_stats`) -/

/-- The specification's percentile: "rank = p/100 × (n−1), interpolate
between adjacent sorted values".  Stated directly on the input list. -/
def specPercentile (input : List ℤ) (p : ℚ) : ℚ :=
  let sorted := List.insertionSort (fun a b => a ≤ b) input
  let rank : ℚ := p / 100 * ((input.length : ℚ) - 1)
  let k : ℕ := (⌊rank⌋).toNat
  let lower : ℚ := (sorted.getD k 0 : ℤ)
  let upper : ℚ := (sorted.getD (k + 1) (sorted.getD k 0) : ℤ)
  lower + (rank - (k : ℚ)) * (upper - lower)

/-- The reference trimming algorithm exactly as the specification words
it: empty input gives `(0,0,0,0)`; otherwise retain every value `v` with
`p10 ≤ v ≤ p90` (inclusive); if nothing is retained give `(0,0,0,0)`;
otherwise `(min, mean, max, count)` of the retained values. -/
def referenceTrimmedStats (input : List ℤ) : ℚ × ℚ × ℚ × ℕ :=
  if input.length = 0 then (0, 0, 0, 0)
  else
    let p10 := specPercentile input 10
    let p90 := specPercentile input 90
    let retained := input.filter (fun (v : ℤ) => decide (p10 ≤ (v : ℚ) ∧ (v : ℚ) ≤ p90))
    if retained.length = 0 then (0, 0, 0, 0)
    else
      let mn : ℤ := retained.min?.getD 0
      let total : ℤ := retained.sum
      let mx : ℤ := retained.max?.getD 0
      ((mn : ℚ), (total : ℚ) / (retained.length : ℚ), (mx : ℚ), retained.length)

/-! ## Sample source (`days_to_hire.py`, `get_job_postings_data`,
lines 20–34) -/

/-- Model of `get_job_postings_data`: the `days_to_hire` values of the postings of
one standard job, excluding NULL durations; when a country code is given
the query is additionally filtered on it, and when it is `None` no
country filter is applied at all. -/
def get_job_postings_data (postings : List JobPosting) (standard_job_id : String)
    (country_code : Option String) : List ℤ :=
  let query := postings.filter
    (fun p => p.standard_job_id == standard_job_id && p.days_to_hire.isSome)
  let query := match country_code with
    | some c => query.filter (fun (p : JobPosting) => p.country_code == some c)
    | none => query
  query.filterMap (fun p => p.days_to_hire)

/-! ## The upsert (`days_to_hire.py`, `save_stats`, lines 63–90) -/

/-- Replace the first element satisfying `p` by its image under `f`
(models the ORM mutating the single row returned by `.first()`). -/
def updateFirst (p : α → Bool) (f : α → α) : List α → List α
  | [] => []
  | x :: xs => if p x then f x :: xs else x :: updateFirst p f xs

/-- Model of `save_stats` (`days_to_hire.py`, lines 63–90).  The lookup filters on
`standard_job_id == standard_job_id` and `country_code == country_code`
with SQL semantics (a `None` parameter compiles to `IS NULL`); if a row
is found its four numeric fields are overwritten, otherwise a new row is
inserted whose stored country is the parameter or, when that is `None`,
the literal sentinel `"World"`. -/
def save_stats (store : List JobPostingStats) (newId : String) (standard_job_id : String)
    (country_code : Option String) (min_days avg_days max_days : ℚ) (count : ℕ) :
    List JobPostingStats :=
  let pred := fun (r : JobPostingStats) =>
    r.standard_job_id == standard_job_id && r.country_code == country_code
  match store.find? pred with
  | some _ =>
      updateFirst pred
        (fun r => { r with min_days := min_days, avg_days := avg_days,
                           max_days := max_days, job_postings_number := count }) store
  | none =>
      store ++ [{ id := newId, standard_job_id := standard_job_id,
                  country_code := some (country_code.getD "World"),
                  min_days := min_days, avg_days := avg_days, max_days := max_days,
                  job_postings_number := count }]

/-! ## Per-pair processing (`days_to_hire.py`, `process_job_postings`,
lines 92–107) -/

/-- Model of `process_job_postings` (`days_to_hire.py`, lines 92–107): fetch the
raw sample; skip when it is below the threshold; compute the trimmed
stats; skip when the trimmed count is below the threshold; otherwise
upsert.  Returns the updated stats table and the saved/skipped flag. -/
def process_job_postings (postings : List JobPosting) (store : List JobPostingStats)
    (newId standard_job_id : String) (country_code : Option String) (min_threshold : ℤ) :
    List JobPostingStats × Bool :=
  let days_to_hire_values := get_job_postings_data postings standard_job_id country_code
  if (days_to_hire_values.length : ℤ) < min_threshold then (store, false)
  else
    let s := calculate_stats days_to_hire_values
    if (s.2.2.2 : ℤ) < min_threshold then (store, false)
    else
      (save_stats store newId standard_job_id country_code s.1 s.2.1 s.2.2.1 s.2.2.2, true)

/-! ## The driver's pair enumeration (`days_to_hire.py`, `main`,
lines 122–157) -/

/-- Python truthiness of an optional string command-line argument
(`if args.standard_job_id:`): `None` and the empty string are falsy. -/
def truthy : Option String → Bool
  | none => false
  | some s => !s.isEmpty

/-- The ordered list of (standard job, optional country) pairs that
`main` (`days_to_hire.py`, lines 122–157) feeds to
`process_job_postings`: `none` as second component is the World pair.
The job list is the single requested job when one is requested, else all
known jobs; likewise for countries; the World pair of a job is appended
after its country pairs unless a specific country was requested. -/
def mainPairs (jobArg countryArg : Option String) (allJobs allCountries : List String) :
    List (String × Option String) :=
  let standard_jobs := if truthy jobArg then [jobArg.getD ""] else allJobs
  let countries := if truthy countryArg then [countryArg.getD ""] else allCountries
  standard_jobs.flatMap (fun standard_job_id =>
    countries.map (fun country_code => (standard_job_id, some country_code)) ++
      (if truthy countryArg then [] else [(standard_job_id, (none : Option String))]))

/-! ## The read-side endpoint (`src/home_task/api/api.py`, lines 24–69) -/

/-- The pydantic response model `DaysToHireStats` (`api.py`, lines 13–21);
all fields except the job identifier are optional in the schema. -/
structure DaysToHireStats where
  standard_job_id : String
  country_code : Option String
  min_days : Option ℚ
  avg_days : Option ℚ
  max_days : Option ℚ
  job_postings_number : Option ℕ
deriving DecidableEq, Repr

/-- Outcome of one request: a successful response body, or an
`HTTPException` with its status code and detail string. -/
inductive ApiResponse where
  | ok (stats : DaysToHireStats)
  | httpError (status_code : ℕ) (detail : String)
deriving DecidableEq, Repr

/-- Model of `get_days_to_hire_stats` (`api.py`, lines 24–69): filter the stats
table on the requested `standard_job_id`, then on the requested country
code or on the sentinel `"World"` when none was given; `.first()` takes
the head; when no row matches, an `HTTPException` with status 404 is
raised. -/
def get_days_to_hire_stats (db : List JobPostingStats) (standard_job_id : String)
    (country_code : Option String) : ApiResponse :=
  let query := db.filter (fun r => r.standard_job_id == standard_job_id)
  let query := match country_code with
    | some c => query.filter (fun (r : JobPostingStats) => r.country_code == some c)
    | none => query.filter (fun (r : JobPostingStats) => r.country_code == some "World")
  match query.head? with
  | some stats =>
      .ok { standard_job_id := stats.standard_job_id,
            country_code := stats.country_code,
            min_days := some stats.min_days,
            avg_days := some stats.avg_days,
            max_days := some stats.max_days,
            job_postings_number := some stats.job_postings_number }
  | none =>
      .httpError 404
        ("No statistics found for standard_job_id " ++ standard_job_id ++
          " and country_code " ++ (country_code.getD "World") ++ ". ")

/-- The endpoint's generic handler (`api.py`, lines 63–67): any exception
other than an `HTTPException` is surfaced as status 500 with the
underlying message. -/
def api_exception_response (message : String) : ApiResponse :=
  .httpError 500 ("Internal server error: " ++ message)

/-! ## Helper lemmas about the fold-style minimum and maximum -/

theorem listMin_singleton (x : ℤ) : listMin [x] = x := rfl

theorem listMin_cons₂ (x y : ℤ) (t : List ℤ) :
    listMin (x :: y :: t) = min x (listMin (y :: t)) := rfl

theorem listMax_singleton (x : ℤ) : listMax [x] = x := rfl

theorem listMax_cons₂ (x y : ℤ) (t : List ℤ) :
    listMax (x :: y :: t) = max x (listMax (y :: t)) := rfl

theorem listMin_le_of_mem : ∀ {l : List ℤ} {x : ℤ}, x ∈ l → listMin l ≤ x
  | [y], x, h => by
      simp only [List.mem_singleton] at h
      subst h
      exact le_of_eq (listMin_singleton x)
  | y :: z :: t, x, h => by
      rw [listMin_cons₂]
      rcases List.mem_cons.mp h with h1 | h2
      · subst h1; exact min_le_left _ _
      · exact le_trans (min_le_right _ _) (listMin_le_of_mem h2)

theorem le_listMax_of_mem : ∀ {l : List ℤ} {x : ℤ}, x ∈ l → x ≤ listMax l
  | [y], x, h => by
      simp only [List.mem_singleton] at h
      subst h
      exact le_of_eq (listMax_singleton x).symm
  | y :: z :: t, x, h => by
      rw [listMax_cons₂]
      rcases List.mem_cons.mp h with h1 | h2
      · subst h1; exact le_max_left _ _
      · exact le_trans (le_listMax_of_mem h2) (le_max_right _ _)

theorem listMin_mem : ∀ {l : List ℤ}, l ≠ [] → listMin l ∈ l
  | [], h => absurd rfl h
  | [x], _ => by rw [listMin_singleton]; exact List.mem_singleton_self x
  | x :: y :: t, _ => by
      rw [listMin_cons₂]
      rcases le_total x (listMin (y :: t)) with h | h
      · rw [min_eq_left h]; exact List.mem_cons_self _ _
      · rw [min_eq_right h]
        exact List.mem_cons_of_mem _ (listMin_mem (by simp))

theorem listMax_mem : ∀ {l : List ℤ}, l ≠ [] → listMax l ∈ l
  | [], h => absurd rfl h
  | [x], _ => by rw [listMax_singleton]; exact List.mem_singleton_self x
  | x :: y :: t, _ => by
      rw [listMax_cons₂]
      rcases le_total (listMax (y :: t)) x with h | h
      · rw [max_eq_left h]; exact List.mem_cons_self _ _
      · rw [max_eq_right h]
        exact List.mem_cons_of_mem _ (listMax_mem (by simp))

theorem listMin_perm {l₁ l₂ : List ℤ} (h : List.Perm l₁ l₂) : listMin l₁ = listMin l₂ := by
  rcases eq_or_ne l₁ [] with rfl | h1
  · rw [h.symm.eq_nil]
  · have h2 : l₂ ≠ [] := by
      intro hn
      subst hn
      exact h1 h.eq_nil
    exact le_antisymm
      (listMin_le_of_mem (h.mem_iff.mpr (listMin_mem h2)))
      (listMin_le_of_mem (h.mem_iff.mp (listMin_mem h1)))

theorem listMax_perm {l₁ l₂ : List ℤ} (h : List.Perm l₁ l₂) : listMax l₁ = listMax l₂ := by
  rcases eq_or_ne l₁ [] with rfl | h1
  · rw [h.symm.eq_nil]
  · have h2 : l₂ ≠ [] := by
      intro hn
      subst hn
      exact h1 h.eq_nil
    exact le_antisymm
      (le_listMax_of_mem (h.mem_iff.mp (listMax_mem h1)))
      (le_listMax_of_mem (h.mem_iff.mpr (listMax_mem h2)))

theorem foldl_min_pull : ∀ (t : List ℤ) (x y : ℤ), t.foldl min (min x y) = min x (t.foldl min y)
  | [], _, _ => rfl
  | z :: t, x, y => by
      rw [List.foldl_cons, List.foldl_cons, min_assoc, foldl_min_pull t x (min y z)]

theorem foldl_max_pull : ∀ (t : List ℤ) (x y : ℤ), t.foldl max (max x y) = max x (t.foldl max y)
  | [], _, _ => rfl
  | z :: t, x, y => by
      rw [List.foldl_cons, List.foldl_cons, max_assoc, foldl_max_pull t x (max y z)]

theorem listMin_eq_foldl : ∀ (x : ℤ) (xs : List ℤ), listMin (x :: xs) = xs.foldl min x
  | _, [] => rfl
  | x, y :: t => by
      rw [listMin_cons₂, listMin_eq_foldl y t, List.foldl_cons, foldl_min_pull]

theorem listMax_eq_foldl : ∀ (x : ℤ) (xs : List ℤ), listMax (x :: xs) = xs.foldl max x
  | _, [] => rfl
  | x, y :: t => by
      rw [listMax_cons₂, listMax_eq_foldl y t, List.foldl_cons, foldl_max_pull]

theorem listMin_eq_min?_getD (x : ℤ) (xs : List ℤ) :
    listMin (x :: xs) = (x :: xs).min?.getD 0 := by
  rw [listMin_eq_foldl]
  simp [List.min?]

theorem listMax_eq_max?_getD (x : ℤ) (xs : List ℤ) :
    listMax (x :: xs) = (x :: xs).max?.getD 0 := by
  rw [listMax_eq_foldl]
  simp [List.max?]

/-! ## The calculator refines the specification's reference algorithm -/

theorem specPercentile_eq_npPercentile (input : List ℤ) (p : ℚ) :
    specPercentile input p = npPercentile input p := by
  simp [specPercentile, npPercentile, percentileSorted, List.length_insertionSort]

theorem calculate_stats_eq_reference (l : List ℤ) :
    calculate_stats l = referenceTrimmedStats l := by
  simp only [calculate_stats, referenceTrimmedStats]
  rw [specPercentile_eq_npPercentile, specPercentile_eq_npPercentile]
  have hpred : (fun (v : ℤ) =>
      decide (npPercentile l 10 ≤ (v : ℚ) ∧ (v : ℚ) ≤ npPercentile l 90))
      = inBand (npPercentile l 10) (npPercentile l 90) := by
    funext v
    rw [inBand, Bool.decide_and]
  rw [hpred]
  by_cases h0 : l.length = 0
  · simp [h0]
  · simp only [h0, if_false]
    cases hf : l.filter (inBand (npPercentile l 10) (npPercentile l 90)) with
    | nil => simp
    | cons x xs =>
        simp only [List.length_cons]
        have hne : xs.length + 1 ≠ 0 := Nat.succ_ne_zero _
        simp only [hne, if_false]
        refine Prod.ext ?_ (Prod.ext ?_ (Prod.ext ?_ rfl))
        · rw [listMin_eq_min?_getD]
        · rw [← Int.cast_list_sum]
        · rw [listMax_eq_max?_getD]

/-! ## Claim theorems about the calculator -/

/-- Evaluation of the calculator on the specification's worked example
`[1,…,10]`: `p10 = 1.9`, `p90 = 9.1`, retained `{2,…,9}`. -/
theorem calculate_stats_example_ten :
    calculate_stats [1,2,3,4,5,6,7,8,9,10] = (2, 11/2, 9, 8) := by
  have hs : List.insertionSort (fun a b => a ≤ b) ([1,2,3,4,5,6,7,8,9,10] : List ℤ)
      = [1,2,3,4,5,6,7,8,9,10] := by decide
  have h10 : npPercentile [1,2,3,4,5,6,7,8,9,10] 10 = 19/10 := by
    rw [npPercentile, hs]
    norm_num [percentileSorted]
  have h90 : npPercentile [1,2,3,4,5,6,7,8,9,10] 90 = 91/10 := by
    rw [npPercentile, hs]
    norm_num [percentileSorted]
    simp
    norm_num
  rw [calculate_stats]
  norm_num [h10, h90, inBand, List.filter, listMin, listMax]

/-- Evaluation of the calculator on a one-element list: both percentiles
equal the element, so it is retained and is its own min, mean and max. -/
theorem calculate_stats_singleton (x : ℤ) :
    calculate_stats [x] = ((x : ℚ), (x : ℚ), (x : ℚ), 1) := by
  have h : ∀ p : ℚ, npPercentile [x] p = (x : ℚ) := by
    intro p
    norm_num [npPercentile, List.insertionSort, List.orderedInsert, percentileSorted]
  rw [calculate_stats]
  norm_num [h, inBand, List.filter, listMin, listMax]

/-- Claim C3: for every list of durations, `calculate_stats` equals the
reference trimming algorithm (empty input gives `(0,0,0,0)`; otherwise
10th/90th percentiles with linear interpolation at rank `p/100 × (n−1)`,
inclusive retention, zeros when nothing is retained, else min/mean/max/count
of the retained values); in particular `[1,…,10]` gives `(2, 5.5, 9, 8)`
and a singleton `[x]` gives `(x, x, x, 1)`. -/
theorem C3_calculate_stats_matches_reference :
    (∀ l : List ℤ, calculate_stats l = referenceTrimmedStats l) ∧
    calculate_stats [] = (0, 0, 0, 0) ∧
    calculate_stats [1,2,3,4,5,6,7,8,9,10] = (2, 11/2, 9, 8) ∧
    (∀ x : ℤ, calculate_stats [x] = ((x : ℚ), (x : ℚ), (x : ℚ), 1)) :=
  ⟨calculate_stats_eq_reference, rfl, calculate_stats_example_ten,
    calculate_stats_singleton⟩

/-- Claim C5: for every input, `sample_count` is at most the input length;
a zero count forces all three day statistics to `0`; and a positive count
forces `min_days ≤ avg_days ≤ max_days`. -/
theorem C5_calculate_stats_invariants (l : List ℤ) :
    (calculate_stats l).2.2.2 ≤ l.length ∧
    ((calculate_stats l).2.2.2 = 0 →
      (calculate_stats l).1 = 0 ∧ (calculate_stats l).2.1 = 0 ∧
        (calculate_stats l).2.2.1 = 0) ∧
    (0 < (calculate_stats l).2.2.2 →
      (calculate_stats l).1 ≤ (calculate_stats l).2.1 ∧
        (calculate_stats l).2.1 ≤ (calculate_stats l).2.2.1) := by
  simp only [calculate_stats]
  by_cases h0 : l.length = 0
  · simp [h0]
  · simp only [h0, if_false]
    by_cases h1 : (l.filter (inBand (npPercentile l 10) (npPercentile l 90))).length = 0
    · simp [h1]
    · simp only [h1, if_false]
      set f := l.filter (inBand (npPercentile l 10) (npPercentile l 90)) with hf
      have hpos : 0 < (f.length : ℚ) := by exact_mod_cast Nat.pos_of_ne_zero h1
      refine ⟨List.length_filter_le _ _, fun hc => hc.elim, fun _ => ⟨?_, ?_⟩⟩
      · show ((listMin f : ℤ) : ℚ) ≤ (f.map (fun (v : ℤ) => (v : ℚ))).sum / (f.length : ℚ)
        rw [le_div_iff₀ hpos]
        have hb : ∀ x ∈ f.map (fun (v : ℤ) => (v : ℚ)), ((listMin f : ℤ) : ℚ) ≤ x := by
          intro x hx
          rcases List.mem_map.mp hx with ⟨v, hv, rfl⟩
          exact_mod_cast listMin_le_of_mem hv
        have hs := List.card_nsmul_le_sum (f.map (fun (v : ℤ) => (v : ℚ))) _ hb
        rw [List.length_map, nsmul_eq_mul] at hs
        calc ((listMin f : ℤ) : ℚ) * (f.length : ℚ)
            = (f.length : ℚ) * ((listMin f : ℤ) : ℚ) := mul_comm _ _
          _ ≤ _ := hs
      · show (f.map (fun (v : ℤ) => (v : ℚ))).sum / (f.length : ℚ) ≤ ((listMax f : ℤ) : ℚ)
        rw [div_le_iff₀ hpos]
        have hb : ∀ x ∈ f.map (fun (v : ℤ) => (v : ℚ)), x ≤ ((listMax f : ℤ) : ℚ) := by
          intro x hx
          rcases List.mem_map.mp hx with ⟨v, hv, rfl⟩
          exact_mod_cast le_listMax_of_mem hv
        have hs := List.sum_le_card_nsmul (f.map (fun (v : ℤ) => (v : ℚ))) _ hb
        rw [List.length_map, nsmul_eq_mul] at hs
        calc (f.map (fun (v : ℤ) => (v : ℚ))).sum
            ≤ (f.length : ℚ) * ((listMax f : ℤ) : ℚ) := hs
          _ = ((listMax f : ℤ) : ℚ) * (f.length : ℚ) := mul_comm _ _

/-- Witness for Claim C5 at the concrete input `[1,…,10]`: the count `8`
is at most the length `10`, and the positive-count bound gives
`2 ≤ 5.5 ≤ 9`. -/
theorem C5_calculate_stats_invariants_witness :
    (calculate_stats [1,2,3,4,5,6,7,8,9,10]).2.2.2 ≤ 10 ∧
    ((calculate_stats [1,2,3,4,5,6,7,8,9,10]).1 ≤
        (calculate_stats [1,2,3,4,5,6,7,8,9,10]).2.1 ∧
      (calculate_stats [1,2,3,4,5,6,7,8,9,10]).2.1 ≤
        (calculate_stats [1,2,3,4,5,6,7,8,9,10]).2.2.1) :=
  ⟨(C5_calculate_stats_invariants [1,2,3,4,5,6,7,8,9,10]).1,
   (C5_calculate_stats_invariants [1,2,3,4,5,6,7,8,9,10]).2.2 (by
      rw [calculate_stats_example_ten]
      norm_num)⟩

/-- Claim C10: `calculate_stats` is invariant under permutation of its
input list. -/
theorem C10_calculate_stats_perm_invariant (l₁ l₂ : List ℤ)
    (h : List.Perm l₁ l₂) : calculate_stats l₁ = calculate_stats l₂ := by
  have hsort : List.insertionSort (fun a b => a ≤ b) l₁
      = List.insertionSort (fun a b => a ≤ b) l₂ :=
    List.eq_of_perm_of_sorted
      ((List.perm_insertionSort _ l₁).trans (h.trans (List.perm_insertionSort _ l₂).symm))
      (List.sorted_insertionSort _ l₁) (List.sorted_insertionSort _ l₂)
  have hp : ∀ p : ℚ, npPercentile l₁ p = npPercentile l₂ p := by
    intro p; rw [npPercentile, npPercentile, hsort]
  have hlen : l₁.length = l₂.length := h.length_eq
  simp only [calculate_stats, hp, hlen]
  have hfilt : List.Perm
      (l₁.filter (inBand (npPercentile l₂ 10) (npPercentile l₂ 90)))
      (l₂.filter (inBand (npPercentile l₂ 10) (npPercentile l₂ 90))) := h.filter _
  rw [listMin_perm hfilt, listMax_perm hfilt, hfilt.length_eq,
    (hfilt.map (fun (v : ℤ) => (v : ℚ))).sum_eq]

/-- Witness for Claim C10: the permuted pair `[2,1]` and `[1,2]` get the
same statistics. -/
theorem C10_calculate_stats_perm_invariant_witness :
    calculate_stats [2, 1] = calculate_stats [1, 2] :=
  C10_calculate_stats_perm_invariant [2, 1] [1, 2] (List.Perm.swap 1 2 [])

/-! ## Claims about the per-pair processing policy -/

/-- Evaluation of the calculator on five identical values: both
percentiles equal the value, everything is retained. -/
theorem calculate_stats_const_seven :
    calculate_stats [7, 7, 7, 7, 7] = (7, 7, 7, 5) := by
  have hs : List.insertionSort (fun a b => a ≤ b) ([7, 7, 7, 7, 7] : List ℤ)
      = [7, 7, 7, 7, 7] := by decide
  have hp : ∀ p : ℚ, p = 10 ∨ p = 90 → npPercentile [7, 7, 7, 7, 7] p = 7 := by
    rintro p (rfl | rfl) <;>
      · rw [npPercentile, hs]
        norm_num [percentileSorted]
        try simp
        try norm_num
  rw [calculate_stats]
  norm_num [hp 10 (Or.inl rfl), hp 90 (Or.inr rfl), inBand, List.filter, listMin, listMax]

/-- Claim C4: `process_job_postings` skips (returning the untouched store
and `false`) when the raw sample is below the threshold, skips likewise
when the trimmed count is below the threshold, and otherwise performs
exactly one upsert and returns `true`. -/
theorem C4_process_job_postings_policy
    (postings : List JobPosting) (store : List JobPostingStats)
    (newId standard_job_id : String) (country_code : Option String)
    (min_threshold : ℤ) :
    (((get_job_postings_data postings standard_job_id country_code).length : ℤ)
        < min_threshold →
      process_job_postings postings store newId standard_job_id country_code min_threshold
        = (store, false)) ∧
    (¬ ((get_job_postings_data postings standard_job_id country_code).length : ℤ)
        < min_threshold →
      ((calculate_stats (get_job_postings_data postings standard_job_id country_code)).2.2.2 : ℤ)
        < min_threshold →
      process_job_postings postings store newId standard_job_id country_code min_threshold
        = (store, false)) ∧
    (¬ ((get_job_postings_data postings standard_job_id country_code).length : ℤ)
        < min_threshold →
      ¬ ((calculate_stats (get_job_postings_data postings standard_job_id country_code)).2.2.2 : ℤ)
        < min_threshold →
      process_job_postings postings store newId standard_job_id country_code min_threshold
        = (save_stats store newId standard_job_id country_code
            (calculate_stats (get_job_postings_data postings standard_job_id country_code)).1
            (calculate_stats (get_job_postings_data postings standard_job_id country_code)).2.1
            (calculate_stats (get_job_postings_data postings standard_job_id country_code)).2.2.1
            (calculate_stats (get_job_postings_data postings standard_job_id country_code)).2.2.2,
          true)) := by
  refine ⟨fun h1 => ?_, fun h1 h2 => ?_, fun h1 h2 => ?_⟩
  · simp only [process_job_postings]
    rw [if_pos h1]
  · simp only [process_job_postings]
    rw [if_neg h1, if_pos h2]
  · simp only [process_job_postings]
    rw [if_neg h1, if_neg h2]

/-- Witness for Claim C4 at a concrete input: five postings of job `j`
with 7 days each and threshold 5 pass both gates, so the pair is upserted
with the computed statistics `(7, 7, 7, 5)` and reported saved. -/
theorem C4_process_job_postings_policy_witness :
    process_job_postings
      [⟨"p1", "t", "j", some "US", some 7⟩, ⟨"p2", "t", "j", some "US", some 7⟩,
       ⟨"p3", "t", "j", some "DE", some 7⟩, ⟨"p4", "t", "j", none, some 7⟩,
       ⟨"p5", "t", "j", some "FR", some 7⟩] [] "id0" "j" none 5
      = (save_stats [] "id0" "j" none 7 7 7 5, true) := by
  have hl : get_job_postings_data
      [⟨"p1", "t", "j", some "US", some 7⟩, ⟨"p2", "t", "j", some "US", some 7⟩,
       ⟨"p3", "t", "j", some "DE", some 7⟩, ⟨"p4", "t", "j", none, some 7⟩,
       ⟨"p5", "t", "j", some "FR", some 7⟩] "j" none = [7, 7, 7, 7, 7] := by decide
  have h := (C4_process_job_postings_policy
      [⟨"p1", "t", "j", some "US", some 7⟩, ⟨"p2", "t", "j", some "US", some 7⟩,
       ⟨"p3", "t", "j", some "DE", some 7⟩, ⟨"p4", "t", "j", none, some 7⟩,
       ⟨"p5", "t", "j", some "FR", some 7⟩] [] "id0" "j" none 5).2.2
      (by rw [hl]; norm_num) (by rw [hl, calculate_stats_const_seven]; norm_num)
  rw [h, hl, calculate_stats_const_seven]

/-- Claim C9: for two distinct values `a ≠ b` the inclusive 10th–90th
percentile band contains neither, so the calculator returns
`(0, 0, 0, 0)` on the non-empty input `[a, b]`, and the pipeline always
skips such a pair at every threshold `≥ 1`. -/
theorem C9_two_distinct_values_always_trimmed_away (a b : ℤ) (hab : a ≠ b) :
    calculate_stats [a, b] = (0, 0, 0, 0) ∧
    (∀ (postings : List JobPosting) (store : List JobPostingStats)
        (newId standard_job_id : String) (country_code : Option String)
        (min_threshold : ℤ), 1 ≤ min_threshold →
      get_job_postings_data postings standard_job_id country_code = [a, b] →
      process_job_postings postings store newId standard_job_id country_code min_threshold
        = (store, false)) := by
  have hmain : calculate_stats [a, b] = (0, 0, 0, 0) := by
    rcases hab.lt_or_lt with h | h
    · have hq : (a : ℚ) < (b : ℚ) := by exact_mod_cast h
      have hs : List.insertionSort (fun x y => x ≤ y) [a, b] = [a, b] := by
        simp [List.insertionSort, List.orderedInsert, h.le]
      have h10 : npPercentile [a, b] 10 = (a : ℚ) + (1/10) * ((b : ℚ) - (a : ℚ)) := by
        rw [npPercentile, hs]
        norm_num [percentileSorted]
      have h90 : npPercentile [a, b] 90 = (a : ℚ) + (9/10) * ((b : ℚ) - (a : ℚ)) := by
        rw [npPercentile, hs]
        norm_num [percentileSorted]
      have hfa : inBand (npPercentile [a, b] 10) (npPercentile [a, b] 90) a = false := by
        have : ¬ (npPercentile [a, b] 10 ≤ (a : ℚ)) := by rw [h10]; intro hcon; linarith
        simp [inBand, this]
      have hfb : inBand (npPercentile [a, b] 10) (npPercentile [a, b] 90) b = false := by
        have : ¬ ((b : ℚ) ≤ npPercentile [a, b] 90) := by rw [h90]; intro hcon; linarith
        simp [inBand, this]
      rw [calculate_stats]
      norm_num [List.filter, hfa, hfb]
    · have hq : (b : ℚ) < (a : ℚ) := by exact_mod_cast h
      have hs : List.insertionSort (fun x y => x ≤ y) [a, b] = [b, a] := by
        simp [List.insertionSort, List.orderedInsert, not_le.mpr h]
      have h10 : npPercentile [a, b] 10 = (b : ℚ) + (1/10) * ((a : ℚ) - (b : ℚ)) := by
        rw [npPercentile, hs]
        norm_num [percentileSorted]
      have h90 : npPercentile [a, b] 90 = (b : ℚ) + (9/10) * ((a : ℚ) - (b : ℚ)) := by
        rw [npPercentile, hs]
        norm_num [percentileSorted]
      have hfa : inBand (npPercentile [a, b] 10) (npPercentile [a, b] 90) a = false := by
        have : ¬ ((a : ℚ) ≤ npPercentile [a, b] 90) := by rw [h90]; intro hcon; linarith
        simp [inBand, this]
      have hfb : inBand (npPercentile [a, b] 10) (npPercentile [a, b] 90) b = false := by
        have : ¬ (npPercentile [a, b] 10 ≤ (b : ℚ)) := by rw [h10]; intro hcon; linarith
        simp [inBand, this]
      rw [calculate_stats]
      norm_num [List.filter, hfa, hfb]
  refine ⟨hmain, ?_⟩
  intro postings store newId standard_job_id country_code min_threshold hth hdata
  have hth0 : ((0 : ℕ) : ℤ) < min_threshold := by
    simpa using lt_of_lt_of_le zero_lt_one hth
  simp only [process_job_postings, hdata, hmain]
  by_cases h2 : (([a, b] : List ℤ).length : ℤ) < min_threshold
  · rw [if_pos h2]
  · rw [if_neg h2, if_pos hth0]

/-- Witness for Claim C9 at `a = 0`, `b = 1`: the calculator zeroes out
the pair and the pipeline skips it at threshold 1. -/
theorem C9_two_distinct_values_always_trimmed_away_witness :
    calculate_stats [0, 1] = (0, 0, 0, 0) ∧
    process_job_postings
      [⟨"p1", "t", "j", some "US", some 0⟩, ⟨"p2", "t", "j", some "US", some 1⟩]
      [] "id0" "j" none 1 = ([], false) :=
  ⟨(C9_two_distinct_values_always_trimmed_away 0 1 (by decide)).1,
   (C9_two_distinct_values_always_trimmed_away 0 1 (by decide)).2
     [⟨"p1", "t", "j", some "US", some 0⟩, ⟨"p2", "t", "j", some "US", some 1⟩]
     [] "id0" "j" none 1 (by norm_num) (by decide)⟩

/-! ## Claims about the upsert -/

/-- Claim C1 (evaluated at its failing input): `save_stats` normalizes the
absent country to `"World"` before storage only.  The lookup compares the
`country_code` column against the raw parameter, so for the World pair it
looks for a NULL country while the stored row says `"World"`: a second
identical call does not find the stored row and inserts a second one,
contradicting "the lookup key equals the stored key". -/
theorem C1_world_normalized_on_store_but_not_on_lookup :
    (save_stats [] "id1" "job-1" none 1 2 3 5).map (fun r => r.country_code)
      = [some "World"] ∧
    (save_stats (save_stats [] "id1" "job-1" none 1 2 3 5) "id2" "job-1" none 1 2 3 5).length
      = 2 :=
  ⟨rfl, rfl⟩

/-- Claim C2 (evaluated at its failing input): the World upsert is not
idempotent.  Calling `save_stats` twice with identical inputs and an
absent country changes the stored state and leaves two rows with the same
natural key (`"job-1"`, `"World"`). -/
theorem C2_world_upsert_not_idempotent :
    ((save_stats (save_stats [] "id1" "job-1" none 1 2 3 5) "id2" "job-1" none 1 2 3 5).filter
        (fun r => r.standard_job_id == "job-1" && r.country_code == some "World")).length
      = 2 ∧
    save_stats (save_stats [] "id1" "job-1" none 1 2 3 5) "id2" "job-1" none 1 2 3 5
      ≠ save_stats [] "id1" "job-1" none 1 2 3 5 :=
  ⟨rfl, fun h => absurd (congrArg List.length h) (by decide)⟩

/-! ## Claims about the sample source and the driver -/

/-- Claim C6: the raw sample fetched for a job's World pair is the list of
all non-missing durations of that job's postings, with no country filter
at all: stated as the unfiltered query, as a membership characterization
quantifying over every posting (also those with no recorded country), and
on the specification's concrete example (countries `A` and `B`). -/
theorem C6_world_sample_aggregates_all_countries :
    (∀ (postings : List JobPosting) (standard_job_id : String),
      get_job_postings_data postings standard_job_id none
        = (postings.filter (fun p => p.standard_job_id == standard_job_id
            && p.days_to_hire.isSome)).filterMap (fun p => p.days_to_hire)) ∧
    (∀ (postings : List JobPosting) (standard_job_id : String) (d : ℤ),
      d ∈ get_job_postings_data postings standard_job_id none ↔
        ∃ p ∈ postings, p.standard_job_id = standard_job_id ∧ p.days_to_hire = some d) ∧
    get_job_postings_data
      [⟨"p1", "t", "j", some "A", some 10⟩, ⟨"p2", "t", "j", some "A", some 20⟩,
       ⟨"p3", "t", "j", some "B", some 30⟩, ⟨"p4", "t", "j", some "B", some 40⟩] "j" none
      = [10, 20, 30, 40] := by
  refine ⟨fun postings standard_job_id => rfl, fun postings standard_job_id d => ?_, by decide⟩
  simp only [get_job_postings_data, List.mem_filterMap, List.mem_filter,
    Bool.and_eq_true, beq_iff_eq]
  constructor
  · rintro ⟨p, ⟨hp, hsid, _⟩, hd⟩
    exact ⟨p, hp, hsid, hd⟩
  · rintro ⟨p, hp, hsid, hd⟩
    exact ⟨p, ⟨hp, hsid, by simp [hd]⟩, hd⟩

/-- Claim C7: the driver's pair enumeration.  With both a (truthy) job and
country requested, exactly the one pair and no World pair; with only a job
requested, that job against every known country and then its World pair;
with nothing requested, every known job against every known country each
followed by that job's World pair, in that deterministic order. -/
theorem C7_main_iteration_policy :
    (∀ (j c : String) (allJobs allCountries : List String), j ≠ "" → c ≠ "" →
      mainPairs (some j) (some c) allJobs allCountries = [(j, some c)]) ∧
    (∀ (j : String) (allJobs allCountries : List String), j ≠ "" →
      mainPairs (some j) none allJobs allCountries
        = allCountries.map (fun c => (j, some c)) ++ [(j, none)]) ∧
    (∀ (allJobs allCountries : List String),
      mainPairs none none allJobs allCountries
        = allJobs.flatMap (fun j =>
            allCountries.map (fun c => (j, some c)) ++ [(j, none)])) := by
  refine ⟨?_, ?_, ?_⟩
  · intro j c allJobs allCountries hj hc
    have hje : j.isEmpty = false :=
      Bool.eq_false_iff.mpr (fun h => hj (by simpa [String.isEmpty_iff] using h))
    have hce : c.isEmpty = false :=
      Bool.eq_false_iff.mpr (fun h => hc (by simpa [String.isEmpty_iff] using h))
    simp [mainPairs, truthy, hje, hce]
  · intro j allJobs allCountries hj
    have hje : j.isEmpty = false :=
      Bool.eq_false_iff.mpr (fun h => hj (by simpa [String.isEmpty_iff] using h))
    simp [mainPairs, truthy, hje]
  · intro allJobs allCountries
    simp [mainPairs, truthy]

/-- Witness for Claim C7 on concrete arguments and catalogs: the three
enumeration shapes evaluated explicitly. -/
theorem C7_main_iteration_policy_witness :
    mainPairs (some "a") (some "b") ["j1", "j2"] ["c1", "c2"] = [("a", some "b")] ∧
    mainPairs (some "a") none ["j1"] ["c1", "c2"]
      = [("a", some "c1"), ("a", some "c2"), ("a", none)] ∧
    mainPairs none none ["j1", "j2"] ["c1"]
      = [("j1", some "c1"), ("j1", none), ("j2", some "c1"), ("j2", none)] :=
  ⟨(C7_main_iteration_policy.1 "a" "b" ["j1", "j2"] ["c1", "c2"]
      (by decide) (by decide)),
   ((C7_main_iteration_policy.2.1 "a" ["j1"] ["c1", "c2"] (by decide)).trans (by decide)),
   ((C7_main_iteration_policy.2.2 ["j1", "j2"] ["c1"]).trans (by decide))⟩

/-! ## Claim about the read-side endpoint -/

/-- Claim C8: the endpoint looks a summary up by the requested job and the
requested country, the absent country meaning the sentinel `"World"`; a
matching row's fields are returned, an empty match yields the 404
not-found signal, and the 404 signal is distinct from the generic 500
server-error signal produced for any other exception. -/
theorem C8_read_side_lookup (db : List JobPostingStats) (standard_job_id : String)
    (country_code : Option String) :
    (∀ row, (db.filter (fun r => r.standard_job_id == standard_job_id
          && r.country_code == some (country_code.getD "World"))).head? = some row →
      get_days_to_hire_stats db standard_job_id country_code
        = .ok ⟨row.standard_job_id, row.country_code, some row.min_days,
            some row.avg_days, some row.max_days, some row.job_postings_number⟩) ∧
    ((db.filter (fun r => r.standard_job_id == standard_job_id
          && r.country_code == some (country_code.getD "World"))).head? = none →
      get_days_to_hire_stats db standard_job_id country_code
        = .httpError 404 ("No statistics found for standard_job_id " ++ standard_job_id ++
            " and country_code " ++ (country_code.getD "World") ++ ". ")) ∧
    (∀ d message, ApiResponse.httpError 404 d ≠ api_exception_response message) := by
  cases country_code with
  | none =>
      have hq : (db.filter (fun r => r.standard_job_id == standard_job_id)).filter
            (fun (r : JobPostingStats) => r.country_code == some "World")
          = db.filter (fun r => r.standard_job_id == standard_job_id
              && r.country_code == some "World") := by
        rw [List.filter_filter]
        exact List.filter_congr (fun a _ => Bool.and_comm _ _)
      refine ⟨fun row hrow => ?_, fun hnone => ?_, fun d message hcon => ?_⟩
      · simp only [Option.getD_none] at hrow
        simp only [get_days_to_hire_stats]
        rw [hq, hrow]
      · simp only [Option.getD_none] at hnone
        simp only [get_days_to_hire_stats]
        rw [hq, hnone]
      · rw [api_exception_response] at hcon
        injection hcon with h1 h2
        exact absurd h1 (by decide)
  | some c =>
      have hq : (db.filter (fun r => r.standard_job_id == standard_job_id)).filter
            (fun (r : JobPostingStats) => r.country_code == some c)
          = db.filter (fun r => r.standard_job_id == standard_job_id
              && r.country_code == some c) := by
        rw [List.filter_filter]
        exact List.filter_congr (fun a _ => Bool.and_comm _ _)
      refine ⟨fun row hrow => ?_, fun hnone => ?_, fun d message hcon => ?_⟩
      · simp only [Option.getD_some] at hrow
        simp only [get_days_to_hire_stats]
        rw [hq, hrow]
      · simp only [Option.getD_some] at hnone
        simp only [get_days_to_hire_stats]
        rw [hq, hnone]
      · rw [api_exception_response] at hcon
        injection hcon with h1 h2
        exact absurd h1 (by decide)

/-- Witness for Claim C8: a store holding the single World row of job `j`
answers the country-less request with that row's fields. -/
theorem C8_read_side_lookup_witness :
    get_days_to_hire_stats [⟨"s1", "j", some "World", 1, 2, 3, 4⟩] "j" none
      = .ok ⟨"j", some "World", some 1, some 2, some 3, some 4⟩ :=
  (C8_read_side_lookup [⟨"s1", "j", some "World", 1, 2, 3, 4⟩] "j" none).1
    ⟨"s1", "j", some "World", 1, 2, 3, 4⟩ rfl
